import Mathlib

/-
  Verification development for the quotation-automation server.

  The definitions below are a shallow embedding of the core of the repository:
  the rate-file index (loadRateIndex / saveRateIndex / addRateMapping), the
  quote-number endpoint, the live generation handler handleGenerateQuotation
  together with its uploadFromStorageAndBuildIndex helper, the Gmail-ingest
  logic (processOneEmail / processAllEmails / buildQuotationToSave) and the
  HTML-builder helpers it consumes.

  Modeling conventions:
  * JavaScript numbers are modeled as exact rationals; toFixed(2) is modeled
    as rounding to two decimal places and Math.round as rounding to the
    nearest integer (half up), which is the value denoted by the produced
    string.
  * Asynchronous collaborator calls (storage, the inference service, the
    persistence layer) are modeled as deterministic oracles carried in an
    environment record, and the observable behavior of a run is collected in
    an explicit state: the stored index, the uploaded-handle arrays, and a
    trace of I/O counters.
  * A JSON field that may be absent is an Option; the empty string stands for
    a JavaScript empty (falsy) string where the source tests truthiness.
-/

set_option maxHeartbeats 1000000

deriving instance DecidableEq for Except

/-! ## Character-list string helpers

The byte-position string primitives of the library (trim, toLower, splitOn,
replace) do not reduce inside the kernel, so the JS string operations the
source uses are modeled directly on character lists. -/

/-- Split a character list at every occurrence of a separator character
(JS split with a one-character separator). -/
def splitOnChar (c : Char) : List Char → List (List Char)
  | [] => [[]]
  | x :: xs =>
    match splitOnChar c xs with
    | [] => [[]]
    | h :: t => if x = c then [] :: h :: t else (x :: h) :: t

/-- JS String.prototype.trim: strip leading and trailing whitespace. -/
def jsStrTrim (s : String) : String :=
  String.mk (((s.toList.dropWhile Char.isWhitespace).reverse.dropWhile
    Char.isWhitespace).reverse)

/-- JS String.prototype.toLowerCase (character-wise). -/
def lowerStr (s : String) : String :=
  String.mk (s.toList.map Char.toLower)

/-- Replace every occurrence of a character by a replacement string
(JS replace with a one-character global pattern). -/
def replaceChar (c : Char) (rep : List Char) (l : List Char) : List Char :=
  l.foldr (fun x acc => if x = c then rep ++ acc else x :: acc) []

/-! ## Rate-file index (loadRateIndex / saveRateIndex / addRateMapping) -/

/-- One entry of the rate index, as written by addRateMapping in server.js:
an object with fields s3Key, openaiFileId, originalName and (in some call
sites) createdAt.  The live rebuild helper omits createdAt, so both optional
fields are Options. -/
structure RateMapping where
  s3Key : String
  openaiFileId : String
  originalName : Option String := none
  createdAt : Option String := none
deriving Repr, DecidableEq

/-- addRateMapping (server.js): load the index, remove any existing entry with
the same s3Key, append the new mapping, save.  The load/save round trip is the
identity on the stored collection, so the call is modeled as a pure update of
the loaded index. -/
def addRateMapping (index : List RateMapping) (m : RateMapping) : List RateMapping :=
  (index.filter fun x => x.s3Key ≠ m.s3Key) ++ [m]

/-- A sequence of addRateMapping (upsert) calls applied in order to a starting
index state. -/
def applyUpserts (index : List RateMapping) (ms : List RateMapping) : List RateMapping :=
  ms.foldl addRateMapping index

/-- The index holds at most one mapping per s3Key. -/
def KeysDistinct (index : List RateMapping) : Prop :=
  index.Pairwise fun a b => a.s3Key ≠ b.s3Key

theorem addRateMapping_keysDistinct (index : List RateMapping) (m : RateMapping)
    (h : KeysDistinct index) : KeysDistinct (addRateMapping index m) := by
  unfold KeysDistinct addRateMapping
  rw [List.pairwise_append]
  refine ⟨h.sublist (List.filter_sublist index), List.pairwise_singleton _ _, ?_⟩
  intro a ha b hb
  rw [List.mem_filter] at ha
  rw [List.mem_singleton] at hb
  subst hb
  simpa using ha.2

theorem applyUpserts_keysDistinct (ms : List RateMapping) (index : List RateMapping)
    (h : KeysDistinct index) : KeysDistinct (applyUpserts index ms) := by
  induction ms generalizing index with
  | nil => simpa [applyUpserts] using h
  | cons m ms ih =>
      have := ih (addRateMapping index m) (addRateMapping_keysDistinct index m h)
      simpa [applyUpserts, List.foldl_cons] using this

theorem filter_addRateMapping_same_key (index : List RateMapping) (m : RateMapping)
    (k : String) (hk : m.s3Key = k) :
    (addRateMapping index m).filter (fun x => x.s3Key = k) = [m] := by
  unfold addRateMapping
  rw [List.filter_append, List.filter_filter]
  have h1 : index.filter (fun a => decide (a.s3Key = k) && decide (a.s3Key ≠ m.s3Key)) = [] := by
    rw [List.filter_eq_nil_iff]
    intro a _
    by_cases hak : a.s3Key = k <;> simp [hak, hk]
  rw [h1]
  simp [hk]

theorem filter_addRateMapping_other_key (index : List RateMapping) (m : RateMapping)
    (k : String) (hk : m.s3Key ≠ k) :
    (addRateMapping index m).filter (fun x => x.s3Key = k) =
      index.filter (fun x => x.s3Key = k) := by
  unfold addRateMapping
  rw [List.filter_append, List.filter_filter]
  have h2 : (List.filter (fun x => decide (x.s3Key = k)) [m]) = [] := by
    simp [hk]
  rw [h2, List.append_nil]
  apply List.filter_congr
  intro a _
  by_cases hak : a.s3Key = k
  · have hkm : k ≠ m.s3Key := fun hmk => hk hmk.symm
    simp [hak, hkm]
  · simp [hak]

/-- Key lemma: after a sequence of upserts, the entries for a key k are
exactly the last upsert with that key when one exists, and the original
entries for k otherwise. -/
theorem applyUpserts_filter (ms : List RateMapping) (index : List RateMapping) (k : String) :
    (applyUpserts index ms).filter (fun x => x.s3Key = k) =
      (match ms.reverse.find? (fun x => x.s3Key = k) with
       | some m => [m]
       | none => index.filter (fun x => x.s3Key = k)) := by
  induction ms generalizing index with
  | nil => simp [applyUpserts]
  | cons m ms ih =>
      have hstep : applyUpserts index (m :: ms) = applyUpserts (addRateMapping index m) ms := by
        simp [applyUpserts, List.foldl_cons]
      rw [hstep, ih (addRateMapping index m)]
      rw [List.reverse_cons, List.find?_append]
      cases hfind : ms.reverse.find? (fun x => x.s3Key = k) with
      | some m2 => simp
      | none =>
          by_cases hmk : m.s3Key = k
          · simp [hmk, filter_addRateMapping_same_key index m k hmk]
          · simp [hmk, filter_addRateMapping_other_key index m k hmk]

/-- Claim C3, counterexample: starting from an index state that already holds
two mappings for the key a, one further upsert (for the unrelated key b)
leaves two live mappings for a, so a subsequent load does not contain at most
one mapping per storageKey. -/
theorem c3_counterexample :
    ¬ ((applyUpserts
          [{ s3Key := "a", openaiFileId := "f1" }, { s3Key := "a", openaiFileId := "f2" }]
          [{ s3Key := "b", openaiFileId := "f3" }]).countP
            (fun x => x.s3Key = "a") ≤ 1) := by
  decide

/-- Claim C3 (amended): starting from an index state with at most one mapping
per s3Key, after any sequence of addRateMapping (upsert) calls the index
contains at most one mapping per s3Key, and the entries for each key are
exactly the most recent upsert with that key (or the unchanged original entry
when the key was never upserted). -/
theorem c3_upsert_last_wins (index ms : List RateMapping) (h : KeysDistinct index) :
    KeysDistinct (applyUpserts index ms) ∧
    ∀ k : String,
      (applyUpserts index ms).filter (fun x => x.s3Key = k) =
        (match ms.reverse.find? (fun x => x.s3Key = k) with
         | some m => [m]
         | none => index.filter (fun x => x.s3Key = k)) :=
  ⟨applyUpserts_keysDistinct ms index h, fun k => applyUpserts_filter ms index k⟩

/-- Witness for C3: the amended statement applied to the empty starting index
and a concrete three-upsert sequence. -/
theorem c3_witness :
    KeysDistinct (applyUpserts ([] : List RateMapping)
        [{ s3Key := "a", openaiFileId := "f1" }, { s3Key := "a", openaiFileId := "f2" },
         { s3Key := "b", openaiFileId := "f3" }]) ∧
    ∀ k : String,
      (applyUpserts ([] : List RateMapping)
          [{ s3Key := "a", openaiFileId := "f1" }, { s3Key := "a", openaiFileId := "f2" },
           { s3Key := "b", openaiFileId := "f3" }]).filter (fun x => x.s3Key = k) =
        (match ([{ s3Key := "a", openaiFileId := "f1" }, { s3Key := "a", openaiFileId := "f2" },
                 { s3Key := "b", openaiFileId := "f3" }] : List RateMapping).reverse.find?
                  (fun x => x.s3Key = k) with
         | some m => [m]
         | none => ([] : List RateMapping).filter (fun x => x.s3Key = k)) :=
  c3_upsert_last_wins [] _ List.Pairwise.nil

/-! ## Quote-number allocator (/api/next-quote-number, formatQuoteNumber) -/

/-- The configured start value of the quote-number counter (server.js:
const startValue = 107, with the comment that the first increment yields
108). -/
def quoteNumberStart : Nat := 107

/-- The /api/next-quote-number endpoint: one DynamoDB atomic update
SET value = if_not_exists(value, start) + increment, returning the updated
value.  Modeled as a pure transition on the single counter record, where none
is an absent record. -/
def nextQuoteNumber (counter : Option Nat) : Nat × Option Nat :=
  let v := counter.getD quoteNumberStart + 1
  (v, some v)

/-- The values returned by n successive allocator calls starting from counter
state c. -/
def allocSeq (c : Option Nat) : Nat → List Nat
  | 0 => []
  | Nat.succ n => (nextQuoteNumber c).1 :: allocSeq (nextQuoteNumber c).2 n

/-- formatQuoteNumber (gmail-ingest/ingestLogic.js): a null or empty value
formats to the empty string, anything else to the DSC- prefix followed by the
decimal number. -/
def formatQuoteNumber (value : Option Nat) : String :=
  match value with
  | none => ""
  | some v => "DSC-" ++ toString v

theorem allocSeq_closed_form (n : Nat) (c : Option Nat) :
    allocSeq c n = (List.range n).map (fun j => c.getD quoteNumberStart + 1 + j) := by
  induction n generalizing c with
  | zero => simp [allocSeq]
  | succ n ih =>
      rw [List.range_succ_eq_map]
      simp only [allocSeq, nextQuoteNumber, List.map_cons, List.map_map, List.cons.injEq]
      refine ⟨by simp, ?_⟩
      rw [ih (some (c.getD quoteNumberStart + 1))]
      apply List.map_congr_left
      intro a _
      simp [Function.comp]
      omega

theorem allocSeq_strict_mono (c : Option Nat) (n : Nat) :
    (allocSeq c n).Pairwise (· < ·) := by
  rw [allocSeq_closed_form]
  refine List.Pairwise.map _ ?_ (List.pairwise_lt_range n)
  intro a b hab
  omega

/-- Claim C8: each allocation from any counter state yields a value strictly
greater than every value returned before it (the returned sequence is the
arithmetic progression from the stored value and is pairwise increasing);
the configured start value is 107 and the first allocation from an absent
counter record yields 108 = start + 1; and the display formatting is the pure
function value to "DSC-" ++ value. -/
theorem c8_quote_number_allocator (c : Option Nat) (n : Nat) (v : Nat) :
    allocSeq c n = (List.range n).map (fun j => c.getD quoteNumberStart + 1 + j) ∧
    (allocSeq c n).Pairwise (· < ·) ∧
    quoteNumberStart = 107 ∧
    (nextQuoteNumber none).1 = quoteNumberStart + 1 ∧
    (nextQuoteNumber none).1 = 108 ∧
    formatQuoteNumber (some v) = "DSC-" ++ toString v :=
  ⟨allocSeq_closed_form n c, allocSeq_strict_mono c n, rfl, rfl, rfl, rfl⟩

/-! ## JavaScript numeric coercions -/

/-- Decimal digits folded to a natural number. -/
def digitsVal (ds : List Char) : Nat :=
  ds.foldl (fun a c => a * 10 + (c.toNat - 48)) 0

/-- Exponent part of a JS float literal: optional sign and digits; an
unparseable exponent is ignored (parseFloat of "1e" is 1). -/
def expVal (t : List Char) : Int :=
  let p : Int × List Char :=
    match t with
    | '-' :: r => (-1, r)
    | '+' :: r => (1, r)
    | _ => (1, t)
  let ds := p.2.takeWhile Char.isDigit
  if ds.isEmpty then 0 else p.1 * digitsVal ds

/-- JS parseFloat, modeled on exact rationals: skip leading whitespace, read
an optional sign, a decimal mantissa and an optional exponent, parsing the
longest valid prefix; none models NaN (no parsable number prefix).  The
non-finite values (Infinity) are outside the model and also map to none. -/
def jsParseFloat (s : String) : Option ℚ :=
  let cs := s.toList.dropWhile Char.isWhitespace
  let sgn : ℚ × List Char :=
    match cs with
    | '-' :: t => (-1, t)
    | '+' :: t => (1, t)
    | _ => (1, cs)
  let ip := sgn.2.takeWhile Char.isDigit
  let cs2 := sgn.2.dropWhile Char.isDigit
  let fpr : List Char × List Char :=
    match cs2 with
    | '.' :: t => (t.takeWhile Char.isDigit, t.dropWhile Char.isDigit)
    | _ => ([], cs2)
  if ip.isEmpty && fpr.1.isEmpty then none
  else
    let mant : ℚ := (digitsVal ip : ℚ) + (digitsVal fpr.1 : ℚ) / ((10 : ℚ) ^ fpr.1.length)
    let e : Int :=
      match fpr.2 with
      | 'e' :: t => expVal t
      | 'E' :: t => expVal t
      | _ => 0
    some (sgn.1 * mant * (10 : ℚ) ^ e)

/-- parseFloat(x) or-else 0, and the Number.isFinite-guarded variant used for
marginPercent: a missing or unparseable value becomes 0. -/
def parseOr0 (s : Option String) : ℚ := (s.bind jsParseFloat).getD 0

/-- JS Math.round on the modeled rationals: round half up (floor of x + 1/2),
which is exactly Math.round on every representable value. -/
def jsRound (x : ℚ) : ℤ := round x

/-- JS Number.prototype.toFixed 2, modeled by the rational value denoted by
the produced 2-decimal string: the argument rounded to hundredths. -/
def round2 (x : ℚ) : ℚ := ((round (x * 100) : ℤ) : ℚ) / 100

/-! ## Line items and their normalization (handleGenerateQuotation) -/

/-- A line item as the extraction call returns it: JSON may omit any field or
fill it with an arbitrary string, so every field is an optional raw string. -/
structure RawLineItem where
  originalDescription : Option String := none
  identifiedPipeType : Option String := none
  quantity : Option String := none
  unitRate : Option String := none
  marginPercent : Option String := none
  finalRate : Option String := none
  lineTotal : Option String := none
deriving Repr, DecidableEq

/-- A normalized line item as produced by handleGenerateQuotation.  The
numeric strings of the source are modeled by their rational values: toString
keeps the exact value, toFixed(2) is round2. -/
structure NormLineItem where
  originalDescription : String
  identifiedPipeType : String
  quantity : ℚ
  unitRate : ℚ
  marginPercent : ℚ
  finalRate : ℚ
  lineTotal : ℚ
deriving Repr, DecidableEq

/-- Per-item normalization in handleGenerateQuotation (server.js 1369-1387):
parse quantity, unitRate and marginPercent (0 when missing or unparseable),
recompute finalRate = unitRate * (1 + marginPercent/100) and
lineTotal = quantity * finalRate, and format.  The finalRate and lineTotal
fields supplied by the extraction call are never read. -/
def normalizeLineItem (it : RawLineItem) : NormLineItem :=
  let unitRate := parseOr0 it.unitRate
  let marginPercent := parseOr0 it.marginPercent
  let quantity := parseOr0 it.quantity
  let finalRate := unitRate * (1 + marginPercent / 100)
  let lineTotal := quantity * finalRate
  { originalDescription := it.originalDescription.getD ""
    identifiedPipeType := it.identifiedPipeType.getD ""
    quantity := quantity
    unitRate := round2 unitRate
    marginPercent := marginPercent
    finalRate := round2 finalRate
    lineTotal := round2 lineTotal }

/-- Claim C4: for every line item returned by the extraction call, with
q, u, m the parsed quantity, unit rate and margin percent (0 when missing or
unparseable), the normalized item has finalRate = u * (1 + m/100) and
lineTotal = q * (u * (1 + m/100)) up to the 2-decimal formatting rounding,
and the values the extraction call supplied for finalRate and lineTotal have
no effect on the normalized item. -/
theorem c4_line_item_arithmetic (it : RawLineItem) (fr lt : Option String) :
    normalizeLineItem { it with finalRate := fr, lineTotal := lt } = normalizeLineItem it ∧
    (normalizeLineItem it).finalRate =
      round2 (parseOr0 it.unitRate * (1 + parseOr0 it.marginPercent / 100)) ∧
    (normalizeLineItem it).lineTotal =
      round2 (parseOr0 it.quantity * (parseOr0 it.unitRate * (1 + parseOr0 it.marginPercent / 100))) :=
  ⟨rfl, rfl, rfl⟩

/-! ## Generation flow (handleGenerateQuotation, uploadFromStorageAndBuildIndex) -/

/-- A rate file as returned by the storage listing: an object with name and
path. -/
structure RateFile where
  name : String
  path : String
deriving Repr, DecidableEq

/-- Outcome of reading one rate document from storage and uploading it to the
inference service.  In the source both the read and the upload sit inside the
same per-file try/catch and both failure modes land in the same uploadErrors
entry, so one oracle models the combined step. -/
inductive UploadOutcome where
  | ok (fileId : String)
  | fail (msg : String)
deriving Repr, DecidableEq

/-- Outcome of one extraction call, classified as the source classifies
errors: a file-not-found-class failure (HTTP 404 or a message containing
"were not found"), any other failure, or a raw text response. -/
inductive ExtractOutcome where
  | ok (rawText : String)
  | staleHandles (msg : String)
  | otherError (msg : String)
deriving Repr, DecidableEq

/-- The parsed JSON body of a successful extraction response; only the fields
the handler touches are modeled, the rest pass through the response spread. -/
structure RawQuotation where
  customerName : Option String := none
  projectName : Option String := none
  quotationDate : Option String := none
  lineItems : Option (List RawLineItem) := none
deriving Repr, DecidableEq

/-- Environment of one handleGenerateQuotation run: the stored rate index as
loadRateIndex returns it (an absent, unreadable or malformed backing file
loads as the empty list — loadRateIndex catches every error), the storage
listing of the rates folder, the per-file read-and-upload oracle, the
per-attempt extraction oracle (attempt number and the handle list passed to
the call), the JSON-parse oracle for a raw response text (JSON.parse plus the
first-brace-span fallback; none models a parse failure) and the current
date. -/
structure GenEnv where
  index : List RateMapping
  storageFiles : List RateFile
  upload : RateFile → UploadOutcome
  extract : Nat → List String → ExtractOutcome
  parseJson : String → Option RawQuotation
  today : String

/-- Counters of the observable I/O of a generation run: storage listings of
the rates folder, reads of rate documents, uploads to the inference service,
invocations of the rebuild helper, and extraction-call attempts. -/
structure GenTrace where
  listings : Nat := 0
  docReads : Nat := 0
  uploads : Nat := 0
  rebuilds : Nat := 0
  extractCalls : Nat := 0
deriving Repr, DecidableEq

/-- Errors surfaced by the generation flow (each corresponds to one thrown or
returned error of the source; the messages are kept only where a claim reads
them). -/
inductive GenError where
  | noContent
  | noInstructions
  | noRateFiles
  | noPdfFiles
  | allUploadsFailed (perFile : List (String × String))
  | extractFailed (msg : String)
  | parseFailed
deriving Repr, DecidableEq

/-- Mutable state of a generation run: the stored index (updated by
addRateMapping during a rebuild), the uploadedFileIds and uploadedFileNames
arrays of the handler, and the I/O trace. -/
structure GenSt where
  index : List RateMapping
  uploadedFileIds : List String := []
  uploadedFileNames : List String := []
  tr : GenTrace := {}
deriving Repr, DecidableEq

/-- Node path.extname on a file name: the suffix of the base name from its
last dot; empty when there is no dot or the only dot is leading. -/
def extnameOf (p : String) : String :=
  let base := (splitOnChar '/' p.toList).getLastD []
  let parts := splitOnChar '.' base
  match parts with
  | [] => ""
  | [_] => ""
  | [[], _] => ""
  | _ => String.mk ('.' :: parts.getLastD [])

/-- The PDF filter of the rebuild helper: path.extname(name).toLowerCase()
equals ".pdf". -/
def isPdfFile (f : RateFile) : Bool :=
  lowerStr (extnameOf f.name) == ".pdf"

/-- The upload loop of uploadFromStorageAndBuildIndex (server.js 1199-1257)
over the remaining listing: skip non-PDF files; for each PDF, read it and
upload it (one oracle step); on success push the handle and name and upsert a
RateMapping (the live helper passes no createdAt); on failure record a
per-file error and continue with the other files. -/
def rebuildLoop (env : GenEnv) :
    List RateFile → GenSt → List (String × String) → Nat → Nat →
      List (String × String) × Nat × Nat × GenSt
  | [], st, errs, found, uploaded => (errs, found, uploaded, st)
  | f :: rest, st, errs, found, uploaded =>
    if isPdfFile f then
      let st1 : GenSt :=
        { st with tr := { st.tr with docReads := st.tr.docReads + 1, uploads := st.tr.uploads + 1 } }
      match env.upload f with
      | UploadOutcome.ok fid =>
          let st2 : GenSt :=
            { st1 with
              uploadedFileIds := st1.uploadedFileIds ++ [fid]
              uploadedFileNames := st1.uploadedFileNames ++ [f.name]
              index := addRateMapping st1.index
                { s3Key := f.path, openaiFileId := fid, originalName := some f.name } }
          rebuildLoop env rest st2 errs (found + 1) (uploaded + 1)
      | UploadOutcome.fail m =>
          rebuildLoop env rest st1 (errs ++ [(f.name, m)]) (found + 1) uploaded
    else
      rebuildLoop env rest st errs found uploaded

/-- uploadFromStorageAndBuildIndex (server.js 1175-1274): list the rates
folder; fail with the no-rate-documents error when the listing is empty; run
the upload loop over the listing; then fail when no PDF was found, or — with
the collected per-file error messages — when every attempted upload failed;
otherwise return the recorded upload errors (the handles and names were
pushed into the handler state). -/
def uploadFromStorageAndBuildIndex (env : GenEnv) (st : GenSt) :
    Except GenError (List (String × String)) × GenSt :=
  let st0 : GenSt :=
    { st with tr := { st.tr with rebuilds := st.tr.rebuilds + 1, listings := st.tr.listings + 1 } }
  if env.storageFiles.isEmpty then (Except.error GenError.noRateFiles, st0)
  else
    match rebuildLoop env env.storageFiles st0 [] 0 0 with
    | (errs, found, uploaded, st1) =>
      if found = 0 then (Except.error GenError.noPdfFiles, st1)
      else if uploaded = 0 then (Except.error (GenError.allUploadsFailed errs), st1)
      else (Except.ok errs, st1)

/-- The display name of an index entry used by the fast path:
originalName, or the last path segment of s3Key when originalName is absent
or empty. -/
def displayNameOf (m : RateMapping) : String :=
  let n := m.originalName.getD ""
  if n == "" then String.mk ((splitOnChar '/' m.s3Key.toList).getLastD []) else n

/-- The request fields of one generation call. -/
structure GenInput where
  emailContent : String := ""
  fileContent : String := ""
  instructions : String := ""
  enquiryFileId : Option String := none
deriving Repr, DecidableEq

/-- The normalized response body of a successful generation call. -/
structure NormQuotation where
  customerName : Option String
  projectName : Option String
  quotationDate : String
  lineItems : List NormLineItem
  usedFiles : List String
deriving Repr, DecidableEq

/-- handleGenerateQuotation (server.js 1146-1414), the live generation flow:
reject when no content or no instructions were provided; take the handle set
from the rate index when it is non-empty (the fast path performs no listing,
no rate-document read and no upload); rebuild from storage when it yields no
handles; make one extraction call and surface its failure as-is — this live
handler has no stale-handle retry; parse the response as JSON and normalize
the line items and the quotation date. -/
def handleGenerateQuotation (env : GenEnv) (inp : GenInput) :
    Except GenError NormQuotation × GenSt :=
  let stInit : GenSt := { index := env.index }
  if inp.emailContent == "" && inp.fileContent == "" && inp.enquiryFileId.isNone then
    (Except.error GenError.noContent, stInit)
  else if jsStrTrim inp.instructions == "" then
    (Except.error GenError.noInstructions, stInit)
  else
    let stA : GenSt :=
      { stInit with
        uploadedFileIds := env.index.map (fun m => m.openaiFileId)
        uploadedFileNames := env.index.map displayNameOf }
    let afterHandles : Except GenError Unit × GenSt :=
      if stA.uploadedFileIds.isEmpty then
        match uploadFromStorageAndBuildIndex env stA with
        | (Except.error e, st1) => (Except.error e, st1)
        | (Except.ok _errs, st1) => (Except.ok (), st1)
      else (Except.ok (), stA)
    match afterHandles with
    | (Except.error e, st1) => (Except.error e, st1)
    | (Except.ok _, st1) =>
      let st2 : GenSt := { st1 with tr := { st1.tr with extractCalls := st1.tr.extractCalls + 1 } }
      match env.extract st1.tr.extractCalls st1.uploadedFileIds with
      | ExtractOutcome.staleHandles m => (Except.error (GenError.extractFailed m), st2)
      | ExtractOutcome.otherError m => (Except.error (GenError.extractFailed m), st2)
      | ExtractOutcome.ok raw =>
        match env.parseJson raw with
        | none => (Except.error GenError.parseFailed, st2)
        | some q =>
          let items := (q.lineItems.getD []).map normalizeLineItem
          let dateRaw := q.quotationDate.getD ""
          let date := if dateRaw == "" then env.today else dateRaw
          (Except.ok
            { customerName := q.customerName
              projectName := q.projectName
              quotationDate := date
              lineItems := items
              usedFiles := st1.uploadedFileNames }, st2)

/-! ## Characterization of the rebuild loop -/

theorem applyUpserts_nil (index : List RateMapping) : applyUpserts index [] = index := rfl

theorem applyUpserts_cons (index : List RateMapping) (m : RateMapping) (ms : List RateMapping) :
    applyUpserts index (m :: ms) = applyUpserts (addRateMapping index m) ms := rfl

/-- The per-file upload errors the rebuild records over a listing: one entry
per PDF whose read-and-upload step failed, in listing order. -/
def errsOver (env : GenEnv) (files : List RateFile) : List (String × String) :=
  (files.filter isPdfFile).filterMap fun f =>
    match env.upload f with
    | UploadOutcome.fail m => some (f.name, m)
    | UploadOutcome.ok _ => none

/-- The successful uploads of the rebuild over a listing: one (fileId, name)
pair per PDF whose read-and-upload step succeeded, in listing order. -/
def oksOver (env : GenEnv) (files : List RateFile) : List (String × String) :=
  (files.filter isPdfFile).filterMap fun f =>
    match env.upload f with
    | UploadOutcome.ok fid => some (fid, f.name)
    | UploadOutcome.fail _ => none

/-- The index upserts the rebuild performs over a listing. -/
def mapsOver (env : GenEnv) (files : List RateFile) : List RateMapping :=
  (files.filter isPdfFile).filterMap fun f =>
    match env.upload f with
    | UploadOutcome.ok fid =>
        some { s3Key := f.path, openaiFileId := fid, originalName := some f.name }
    | UploadOutcome.fail _ => none

/-- Closed form of the upload loop: each file contributes independently,
through its own oracle outcome alone; non-PDF files contribute nothing. -/
theorem rebuildLoop_eq (env : GenEnv) (files : List RateFile) (st : GenSt)
    (errs : List (String × String)) (found uploaded : Nat) :
    rebuildLoop env files st errs found uploaded =
      (errs ++ errsOver env files,
       found + (files.filter isPdfFile).length,
       uploaded + (oksOver env files).length,
       { index := applyUpserts st.index (mapsOver env files)
         uploadedFileIds := st.uploadedFileIds ++ (oksOver env files).map Prod.fst
         uploadedFileNames := st.uploadedFileNames ++ (oksOver env files).map Prod.snd
         tr := { st.tr with
                 docReads := st.tr.docReads + (files.filter isPdfFile).length
                 uploads := st.tr.uploads + (files.filter isPdfFile).length } }) := by
  induction files generalizing st errs found uploaded with
  | nil =>
      simp [rebuildLoop, errsOver, oksOver, mapsOver, applyUpserts_nil]
  | cons f rest ih =>
      cases hf : isPdfFile f with
      | false =>
          simp only [rebuildLoop, hf, Bool.false_eq_true, if_false]
          rw [ih]
          simp [errsOver, oksOver, mapsOver, List.filter_cons, hf]
      | true =>
          cases hu : env.upload f with
          | ok fid =>
              simp only [rebuildLoop, hf, if_true, hu]
              rw [ih]
              simp only [errsOver, oksOver, mapsOver, List.filter_cons, hf, if_true,
                List.filterMap_cons, hu, List.map_cons, applyUpserts_cons, Prod.mk.injEq,
                GenSt.mk.injEq, GenTrace.mk.injEq]
              and_intros <;> (try simp [List.append_assoc]) <;> (try omega)
          | fail m =>
              simp only [rebuildLoop, hf, if_true, hu]
              rw [ih]
              simp only [errsOver, oksOver, mapsOver, List.filter_cons, hf, if_true,
                List.filterMap_cons, hu, List.map_cons, applyUpserts_cons, Prod.mk.injEq,
                GenSt.mk.injEq, GenTrace.mk.injEq]
              and_intros <;> (try simp [List.append_assoc]) <;> (try omega)

theorem rebuild_trace_fields (env : GenEnv) (st : GenSt) :
    (uploadFromStorageAndBuildIndex env st).2.tr.rebuilds = st.tr.rebuilds + 1 ∧
    (uploadFromStorageAndBuildIndex env st).2.tr.listings = st.tr.listings + 1 ∧
    (uploadFromStorageAndBuildIndex env st).2.tr.extractCalls = st.tr.extractCalls := by
  unfold uploadFromStorageAndBuildIndex
  by_cases h : env.storageFiles.isEmpty
  · simp [h]
  · simp only [h, Bool.false_eq_true, if_false, rebuildLoop_eq]
    split <;> (try split) <;> simp

/-- Claim C7: the rebuild fails with the no-rate-documents error exactly when
the storage listing is empty; every non-PDF document is silently skipped (only
the PDF files are read or uploaded, and the recorded handles and errors range
over the PDF files only); each PDF upload is attempted independently, its
contribution determined by its own oracle outcome alone; and the rebuild fails
with the error carrying the collected per-file messages exactly when at least
one upload was attempted and every attempted upload failed. -/
theorem c7_rebuild_behavior (env : GenEnv) (st : GenSt) :
    ((uploadFromStorageAndBuildIndex env st).1 = Except.error GenError.noRateFiles ↔
      env.storageFiles = []) ∧
    (uploadFromStorageAndBuildIndex env st).2.tr.docReads =
      st.tr.docReads + (env.storageFiles.filter isPdfFile).length ∧
    (uploadFromStorageAndBuildIndex env st).2.tr.uploads =
      st.tr.uploads + (env.storageFiles.filter isPdfFile).length ∧
    (uploadFromStorageAndBuildIndex env st).2.uploadedFileIds =
      st.uploadedFileIds ++ (oksOver env env.storageFiles).map Prod.fst ∧
    (uploadFromStorageAndBuildIndex env st).2.uploadedFileNames =
      st.uploadedFileNames ++ (oksOver env env.storageFiles).map Prod.snd ∧
    ((uploadFromStorageAndBuildIndex env st).1 =
        Except.error (GenError.allUploadsFailed (errsOver env env.storageFiles)) ↔
      (env.storageFiles ≠ [] ∧ env.storageFiles.filter isPdfFile ≠ [] ∧
        oksOver env env.storageFiles = [])) ∧
    (env.storageFiles ≠ [] → env.storageFiles.filter isPdfFile ≠ [] →
      oksOver env env.storageFiles ≠ [] →
      (uploadFromStorageAndBuildIndex env st).1 =
        Except.ok (errsOver env env.storageFiles)) := by
  unfold uploadFromStorageAndBuildIndex
  by_cases h : env.storageFiles.isEmpty
  · have hnil : env.storageFiles = [] := List.isEmpty_iff.mp h
    simp [h, hnil, errsOver, oksOver]
  · have hne : env.storageFiles ≠ [] := fun hnil => h (by simp [hnil])
    simp only [Bool.not_eq_true] at h
    simp only [h, Bool.false_eq_true, if_false, rebuildLoop_eq, Nat.zero_add]
    by_cases hp : (env.storageFiles.filter isPdfFile).length = 0
    · have hpl : env.storageFiles.filter isPdfFile = [] := List.length_eq_zero.mp hp
      have hok : oksOver env env.storageFiles = [] := by
        simp [oksOver, hpl]
      simp [hp, hpl, hok, hne, errsOver]
    · have hpne : env.storageFiles.filter isPdfFile ≠ [] := by
        intro hnil
        exact hp (by simp [hnil])
      by_cases hu : (oksOver env env.storageFiles).length = 0
      · have honil : oksOver env env.storageFiles = [] := List.length_eq_zero.mp hu
        simp [hp, hu, hne, hpne, honil]
      · have hokne : oksOver env env.storageFiles ≠ [] := by
          intro hnil
          exact hu (by simp [hnil])
        simp [hp, hu, hne, hpne, hokne]

/-! ## Claims C6 and C1 about handleGenerateQuotation -/

/-- Claim C6: once a generation request passes the content and instructions
guards, a non-empty rate index is used directly — the run performs no storage
listing, no rate-document read, no upload and no rebuild, and the handle set
passed on is exactly the stored (openaiFileId, display name) pairs; and when
the index loads empty (which is also how an unreadable or malformed index
loads), the run performs exactly one full rebuild from storage. -/
theorem c6_fast_path (env : GenEnv) (inp : GenInput)
    (hContent : (inp.emailContent == "" && inp.fileContent == "" && inp.enquiryFileId.isNone) = false)
    (hInstr : (jsStrTrim inp.instructions == "") = false) :
    (env.index ≠ [] →
      (handleGenerateQuotation env inp).2.tr.listings = 0 ∧
      (handleGenerateQuotation env inp).2.tr.docReads = 0 ∧
      (handleGenerateQuotation env inp).2.tr.uploads = 0 ∧
      (handleGenerateQuotation env inp).2.tr.rebuilds = 0 ∧
      (handleGenerateQuotation env inp).2.uploadedFileIds =
        env.index.map (fun m => m.openaiFileId) ∧
      (handleGenerateQuotation env inp).2.uploadedFileNames = env.index.map displayNameOf) ∧
    (env.index = [] → (handleGenerateQuotation env inp).2.tr.rebuilds = 1) := by
  unfold handleGenerateQuotation
  simp only [hContent, Bool.false_eq_true, if_false, hInstr]
  constructor
  · intro hne
    have hids : (env.index.map (fun m => m.openaiFileId)).isEmpty = false := by
      cases hI : env.index with
      | nil => exact absurd hI hne
      | cons a l => simp
    simp only [hids, Bool.false_eq_true, if_false]
    cases hE : env.extract 0 (env.index.map fun m => m.openaiFileId) with
    | staleHandles m => simp [hE]
    | otherError m => simp [hE]
    | ok raw =>
        cases hP : env.parseJson raw with
        | none => simp [hE, hP]
        | some q => simp [hE, hP]
  · intro hempty
    simp only [hempty, List.map_nil, List.isEmpty_nil, if_true]
    rcases hR : uploadFromStorageAndBuildIndex env { index := ([] : List RateMapping) } with ⟨res, st1⟩
    have hre := rebuild_trace_fields env { index := ([] : List RateMapping) }
    rw [hR] at hre
    cases res with
    | error e =>
        simp [hR]
        simpa using hre.1
    | ok errs =>
        cases hE : env.extract st1.tr.extractCalls st1.uploadedFileIds with
        | staleHandles m =>
            simp [hR, hE]
            simpa using hre.1
        | otherError m =>
            simp [hR, hE]
            simpa using hre.1
        | ok raw =>
            cases hP : env.parseJson raw with
            | none =>
                simp [hR, hE, hP]
                simpa using hre.1
            | some q =>
                simp [hR, hE, hP]
                simpa using hre.1

/-- A concrete environment whose extraction call always fails with the
file-not-found class: the rate index holds one mapping, so the fast path is
taken and the single extraction attempt fails. -/
def envC1 : GenEnv :=
  { index := [{ s3Key := "rates/a.pdf", openaiFileId := "file-1", originalName := some "a.pdf" }]
    storageFiles := [{ name := "a.pdf", path := "rates/a.pdf" }]
    upload := fun _ => UploadOutcome.ok "file-2"
    extract := fun _ _ => ExtractOutcome.staleHandles "files were not found"
    parseJson := fun _ => none
    today := "January 1, 2026" }

/-- The request of the concrete stale-handle run. -/
def inpC1 : GenInput := { emailContent := "need 50 pipes", instructions := "match rates" }

/-- Claim C1, counterexample: on a run whose extraction call always fails with
the file-not-found class, the live generation flow performs zero rebuilds and
one extraction attempt and surfaces the error — not the one rebuild and two
attempts the claim requires. -/
theorem c1_counterexample :
    (handleGenerateQuotation envC1 inpC1).1 =
        Except.error (GenError.extractFailed "files were not found") ∧
    (handleGenerateQuotation envC1 inpC1).2.tr.rebuilds = 0 ∧
    (handleGenerateQuotation envC1 inpC1).2.tr.extractCalls = 1 ∧
    ¬ ((handleGenerateQuotation envC1 inpC1).2.tr.rebuilds = 1 ∧
       (handleGenerateQuotation envC1 inpC1).2.tr.extractCalls = 2) := by
  decide

/-- Claim C1 (amended): the live generation flow has no stale-handle retry.
On every input whose extraction call always reports the file-not-found class,
the operation fails, makes at most one extraction attempt, performs at most
one rebuild — and that rebuild can only be the pre-call rebuild for an empty
handle set, never a reaction to the error: with a non-empty index no rebuild
happens at all. -/
theorem c1_stale_error_no_retry (env : GenEnv) (inp : GenInput)
    (hStale : ∀ n ids, ∃ m, env.extract n ids = ExtractOutcome.staleHandles m) :
    (∃ e, (handleGenerateQuotation env inp).1 = Except.error e) ∧
    (handleGenerateQuotation env inp).2.tr.extractCalls ≤ 1 ∧
    (handleGenerateQuotation env inp).2.tr.rebuilds ≤ 1 ∧
    (env.index ≠ [] → (handleGenerateQuotation env inp).2.tr.rebuilds = 0) := by
  have hch : ∀ n ids, env.extract n ids =
      ExtractOutcome.staleHandles (hStale n ids).choose :=
    fun n ids => (hStale n ids).choose_spec
  unfold handleGenerateQuotation
  by_cases hc : (inp.emailContent == "" && inp.fileContent == "" && inp.enquiryFileId.isNone) = true
  · simp [hc]
  · simp only [Bool.not_eq_true] at hc
    simp only [hc, Bool.false_eq_true, if_false]
    by_cases hi : (jsStrTrim inp.instructions == "") = true
    · simp [hi]
    · simp only [Bool.not_eq_true] at hi
      simp only [hi, Bool.false_eq_true, if_false]
      by_cases hempty : env.index = []
      · simp only [hempty, List.map_nil, List.isEmpty_nil, if_true]
        rcases hR : uploadFromStorageAndBuildIndex env { index := ([] : List RateMapping) } with ⟨res, st1⟩
        have hre := rebuild_trace_fields env { index := ([] : List RateMapping) }
        rw [hR] at hre
        have h1 := hre.1
        have h3 := hre.2.2
        simp at h1 h3
        cases res with
        | error e =>
            simp [hR, hempty]
            omega
        | ok errs =>
            simp only [hR]
            rw [hch]
            simp [hempty]
            omega
      · have hids : (env.index.map (fun m => m.openaiFileId)).isEmpty = false := by
          cases hI : env.index with
          | nil => exact absurd hI hempty
          | cons a l => simp
        simp only [hids, Bool.false_eq_true, if_false]
        rw [hch]
        simp

/-- Witness for C1: the amended statement applied to the concrete always-stale
environment. -/
theorem c1_witness :
    (∃ e, (handleGenerateQuotation envC1 inpC1).1 = Except.error e) ∧
    (handleGenerateQuotation envC1 inpC1).2.tr.extractCalls ≤ 1 ∧
    (handleGenerateQuotation envC1 inpC1).2.tr.rebuilds ≤ 1 ∧
    (envC1.index ≠ [] → (handleGenerateQuotation envC1 inpC1).2.tr.rebuilds = 0) :=
  c1_stale_error_no_retry envC1 inpC1 (fun _ _ => ⟨"files were not found", rfl⟩)

/-- Witness for C6: the fast-path statement applied to the concrete
environment with a one-entry index. -/
theorem c6_witness :
    (envC1.index ≠ [] →
      (handleGenerateQuotation envC1 inpC1).2.tr.listings = 0 ∧
      (handleGenerateQuotation envC1 inpC1).2.tr.docReads = 0 ∧
      (handleGenerateQuotation envC1 inpC1).2.tr.uploads = 0 ∧
      (handleGenerateQuotation envC1 inpC1).2.tr.rebuilds = 0 ∧
      (handleGenerateQuotation envC1 inpC1).2.uploadedFileIds =
        envC1.index.map (fun m => m.openaiFileId) ∧
      (handleGenerateQuotation envC1 inpC1).2.uploadedFileNames =
        envC1.index.map displayNameOf) ∧
    (envC1.index = [] → (handleGenerateQuotation envC1 inpC1).2.tr.rebuilds = 1) :=
  c6_fast_path envC1 inpC1 (by decide) (by decide)

/-! ## HTML-builder helpers (gmail-ingest/htmlBuilder.js, current snapshot) -/

/-- JS a or-else b on strings: the first operand unless it is empty (falsy). -/
def jsOrS (a b : String) : String := if a == "" then b else a

/-- escapeHtmlForTable: a nullish value escapes to the empty string, otherwise
ampersand, angle brackets and double quote are replaced in the order of the
source. -/
def escapeHtmlForTable (s : Option String) : String :=
  match s with
  | none => ""
  | some str =>
    String.mk (replaceChar '"' "&quot;".toList
      (replaceChar '>' "&gt;".toList
        (replaceChar '<' "&lt;".toList
          (replaceChar '&' "&amp;".toList str.toList))))

/-- buildItemRowHTML: one item row.  The description formatter
(formatItemDescriptionByPipeType of descriptionFormatter.js, a regex-based
rendering helper none of the claims reads) is passed in as the function fmt;
the row index parameter is unused in the produced HTML, as in the source. -/
def buildItemRowHTML (fmt : RawLineItem → String) (item : RawLineItem)
    (_rowIndex : Nat) (lineTotal : ℚ) : String :=
  let formattedDesc := jsOrS (fmt item)
    (jsOrS (item.originalDescription.getD "") (item.identifiedPipeType.getD ""))
  let desc := escapeHtmlForTable (some formattedDesc)
  let quantityStr := escapeHtmlForTable item.quantity
  let unitRateStr := escapeHtmlForTable (some (item.unitRate.getD ""))
  let marginStr := escapeHtmlForTable (some (item.marginPercent.getD ""))
  let finalRateStr := escapeHtmlForTable (some (item.finalRate.getD ""))
  let amountStr := toString (jsRound lineTotal)
  "<tr class=\"item-row\">" ++
  "<td></td>" ++
  "<td><input type=\"text\" class=\"editable-field\" data-field=\"originalDescription\" value=\"" ++
    desc ++ "\" placeholder=\"Enter description\" style=\"width:100%;border:none;background:transparent;\"></td>" ++
  "<td><span data-field=\"quantity\">" ++ quantityStr ++ "</span></td>" ++
  "<td class=\"col-base-rate\">₹<input type=\"number\" class=\"editable-field\" data-field=\"unitRate\" value=\"" ++
    unitRateStr ++ "\" min=\"0\" step=\"0.01\" style=\"width:80px;\"></td>" ++
  "<td class=\"col-margin\"><input type=\"number\" class=\"editable-field\" data-field=\"marginPercent\" value=\"" ++
    marginStr ++ "\" min=\"0\" step=\"0.01\" style=\"width:60px;\"></td>" ++
  "<td><span class=\"rate-per-mtr\">₹" ++ finalRateStr ++ "</span></td>" ++
  "<td><span class=\"line-total\">₹" ++ amountStr ++ "</span></td>" ++
  "</tr>"

/-- The table head row of the builder. -/
def tableHeadHTML : String :=
  "<thead><tr><th style=\"width:50px\">S. NO</th><th>ITEMS AND DESCRIPTION</th><th>QTY (Mtrs)</th><th class=\"col-base-rate\">BASE RATE</th><th class=\"col-margin\">MARGIN %</th><th>Rate per Mtr</th><th>AMOUNT</th></tr></thead>"

/-- The table produced for an empty or missing item list. -/
def emptyTableHTML : String :=
  "<table id=\"quotationTable\">" ++ tableHeadHTML ++ "<tbody></tbody></table>"

/-- The row loop of buildTableHTMLFromLineItems: per item, parse quantity and
finalRate (0 when unparseable), accumulate quantity * finalRate into the grand
total, and render the row with the rounded line total. -/
def tableRowsAndTotal (fmt : RawLineItem → String) :
    List RawLineItem → List String → ℚ → List String × ℚ
  | [], rows, total => (rows, total)
  | item :: rest, rows, total =>
      let qty := parseOr0 item.quantity
      let finalRate := parseOr0 item.finalRate
      let lineTotal := qty * finalRate
      tableRowsAndTotal fmt rest
        (rows ++ [buildItemRowHTML fmt item rows.length ((jsRound lineTotal : Int) : ℚ)])
        (total + lineTotal)

/-- The result record of buildTableHTMLFromLineItems. -/
structure TableBuild where
  tableHTML : String
  grandTotal : Int
  grandTotalFormatted : String
deriving Repr, DecidableEq

/-- buildTableHTMLFromLineItems (current htmlBuilder snapshot): an empty or
missing list yields the empty table with grand total 0 (formatted "0");
otherwise the rows are rendered, the grand total is the rounded sum of
quantity * finalRate over the items, and the pipe header label is produced by
the getPipeHeaderLabel collaborator (passed in as labelOf) from the first
item. -/
def buildTableHTMLFromLineItems (fmt : RawLineItem → String)
    (labelOf : Option String → String) (lineItems : Option (List RawLineItem)) : TableBuild :=
  match lineItems with
  | none => { tableHTML := emptyTableHTML, grandTotal := 0, grandTotalFormatted := "0" }
  | some items =>
    if items.isEmpty then
      { tableHTML := emptyTableHTML, grandTotal := 0, grandTotalFormatted := "0" }
    else
      let rt := tableRowsAndTotal fmt items [] 0
      let roundedGrandTotal := jsRound rt.2
      let pipeHeaderLabel := jsOrS (labelOf (items.head?.bind (fun it => it.identifiedPipeType))) "Items"
      let pipeHeaderValue := escapeHtmlForTable (some pipeHeaderLabel)
      let pipeHeaderRow :=
        "<tr class=\"pipe-type-header\"><td colspan=\"7\"><div style=\"display:flex;align-items:center;justify-content:space-between;gap:10px;\"><input type=\"text\" class=\"editable-field\" data-field=\"pipeTypeHeader\" value=\"" ++
          pipeHeaderValue ++
          "\" style=\"flex:1;border:none;background:transparent;font-weight:bold;\"><div class=\"pipe-header-actions\" style=\"display:flex;gap:6px;\"></div></div></td></tr>"
      { tableHTML := "<table id=\"quotationTable\">" ++ tableHeadHTML ++ "<tbody>" ++
          pipeHeaderRow ++ String.join rt.1 ++ "</tbody></table>"
        grandTotal := roundedGrandTotal
        grandTotalFormatted := toString roundedGrandTotal }

/-- The extraction result handed to the ingest pipeline by its
generateQuotationData collaborator. -/
structure AiResult where
  customerName : Option String := none
  companyName : Option String := none
  projectName : Option String := none
  quotationDate : Option String := none
  phoneNumber : Option String := none
  mobileNumber : Option String := none
  lineItems : Option (List RawLineItem) := none
deriving Repr, DecidableEq

/-- buildHeaderHTMLFromQuotation, at the ingest call site: the argument is the
AI result spread together with the assigned quote number, so the kindAttn,
billTo, shipTo, preparedBy, assignedTo and checkedBy fields of the generic
header builder are absent and their fallback chains reduce accordingly. -/
def buildHeaderHTMLFromQuotation (ai : AiResult) (quoteNumber : String) : String :=
  let quotationDate := escapeHtmlForTable (some (ai.quotationDate.getD ""))
  let kindAttn := escapeHtmlForTable (some (ai.customerName.getD ""))
  let billTo := escapeHtmlForTable (some (jsOrS (ai.companyName.getD "") (ai.projectName.getD "")))
  let shipTo := escapeHtmlForTable (some (ai.projectName.getD ""))
  let phoneNumber := escapeHtmlForTable (some (ai.phoneNumber.getD ""))
  let mobileNumber := escapeHtmlForTable (some (ai.mobileNumber.getD ""))
  let quoteNumberE := escapeHtmlForTable (some quoteNumber)
  "<div class=\"quotation-header\" id=\"creationQuotationHeader\">\n" ++
  "<div class=\"quote-meta\">\n  <div>\n" ++
  "    <div class=\"meta-row\"><span>QUOTATION DATE</span><input type=\"text\" data-field=\"quotationDate\" class=\"header-editable\" style=\"width:140px;\" value=\"" ++
    quotationDate ++ "\"></div>\n" ++
  "    <div class=\"meta-row\"><span>KIND ATTN</span><input type=\"text\" data-field=\"kindAttn\" class=\"header-editable\" style=\"width:140px;\" value=\"" ++
    kindAttn ++ "\"></div>\n" ++
  "    <div class=\"meta-row\"><span>PHONE NUMBER</span><input type=\"text\" data-field=\"phoneNumber\" class=\"header-editable\" style=\"width:140px;\" value=\"" ++
    phoneNumber ++ "\"></div>\n" ++
  "    <div class=\"meta-row\"><span>MOBILE NUMBER</span><input type=\"text\" data-field=\"mobileNumber\" class=\"header-editable\" style=\"width:140px;\" value=\"" ++
    mobileNumber ++ "\"></div>\n  </div>\n  <div>\n" ++
  "    <div class=\"meta-row\"><span>PREPARED BY</span><input type=\"text\" data-field=\"preparedBy\" class=\"header-editable\" style=\"width:140px;\" value=\"\"></div>\n" ++
  "    <div class=\"meta-row\"><span>ASSIGNED TO</span><input type=\"text\" data-field=\"assignedTo\" class=\"header-editable\" style=\"width:140px;\" value=\"\"></div>\n" ++
  "    <div class=\"meta-row\"><span>CHECKED BY</span><input type=\"text\" data-field=\"checkedBy\" class=\"header-editable\" style=\"width:140px;\" value=\"\"></div>\n" ++
  "    <div class=\"meta-row\"><span>QUOTE NUMBER</span><input type=\"text\" data-field=\"quoteNumber\" class=\"header-editable\" style=\"width:140px;\" value=\"" ++
    quoteNumberE ++ "\"></div>\n  </div>\n</div>\n" ++
  "<div class=\"bill-ship\">\n" ++
  "  <div><strong>Bill To</strong><br><textarea data-field=\"billTo\" class=\"header-editable\" rows=\"2\" style=\"width:100%; resize:vertical;\">" ++
    billTo ++ "</textarea></div>\n" ++
  "  <div><strong>Ship To</strong><br><textarea data-field=\"shipTo\" class=\"header-editable\" rows=\"2\" style=\"width:100%; resize:vertical;\">" ++
    shipTo ++ "</textarea></div>\n</div>\n</div>"

/-! ## Gmail ingest (gmail-ingest/ingestLogic.js, route.js) -/

/-- The Gmail inbox deep-link template of ingestLogic.js. -/
def gmailInboxUrl : String := "https://mail.google.com/mail/u/0/#inbox/"

/-- An email attachment of the ingest payload: name, contentType and the
base64 data, each defaulting to the empty string when the JSON field is
absent (falsy).  The decoded buffer is opaque to the claims; the upload
oracle consumes the attachment record itself. -/
structure Attachment where
  name : String := ""
  contentType : String := ""
  base64 : String := ""
deriving Repr, DecidableEq

/-- An inbound email record; an absent id or body is the empty string (JS
falsy), an absent attachments field is the empty list. -/
structure EmailRecord where
  id : String := ""
  body : String := ""
  attachments : List Attachment := []
deriving Repr, DecidableEq

/-- isPdfAttachment (gmail-ingest/attachmentUtils.js, src/unnamed/part_007):
lower-case the name and the contentType; the extension is the suffix of the
lower-cased name from its last dot (empty when the name contains no dot); the
attachment counts as PDF when the contentType is application/pdf or the
extension is .pdf. -/
def isPdfAttachment (att : Attachment) : Bool :=
  let name := (lowerStr att.name).toList
  let contentType := lowerStr att.contentType
  let parts := splitOnChar '.' name
  let ext := if parts.length ≥ 2 then String.mk ('.' :: parts.getLastD []) else ""
  contentType == "application/pdf" || ext == ".pdf"

/-- getFirstPdfAttachment (gmail-ingest/attachmentUtils.js,
src/unnamed/part_007): walk the list, skipping attachments without base64
data and attachments that do not look like a PDF; the first remaining one is
returned with its name and contentType defaulted (to enquiry.pdf and
application/pdf) and its data decoded.  decodeBase64Attachment only throws on
a missing or non-string base64 value, which the presence check already
excludes here (the field is a string in the model), so the per-item try/catch
never skips an item. -/
def getFirstPdfAttachment (atts : List Attachment) : Option Attachment :=
  match atts.find? (fun att => !(att.base64 == "") && isPdfAttachment att) with
  | some att =>
      some { att with
        name := jsOrS att.name "enquiry.pdf"
        contentType := jsOrS att.contentType "application/pdf" }
  | none => none

/-- A persisted quotation, in the shape buildQuotationToSave produces. -/
structure Quotation where
  id : Nat
  createdAt : String
  updatedAt : String
  customerName : Option String
  companyName : Option String
  projectName : Option String
  quotationDate : Option String
  phoneNumber : Option String
  mobileNumber : Option String
  lineItems : List RawLineItem
  quoteNumber : String
  termsText : String
  grandTotal : String
  tableHTML : String
  headerHTML : String
  emailContent : String
  emailLink : String
  gmailMessageId : String
  saved : Bool
deriving Repr, DecidableEq

/-- The cross-request state the pipeline touches: the persisted quotations,
the quote-number counter record, and a strictly increasing tick modeling
Date.now() (both the quotation id and the ISO timestamps are derived from
it). -/
structure World where
  quotations : List Quotation := []
  counter : Option Nat := none
  nowMs : Nat := 0
deriving Repr, DecidableEq

/-- Modelled from the spec: the persistence collaborator
findQuotationByGmailMessageId wired in by the server is not among the sources.
Section 6 of the spec: findByExternalId(id) returns the persisted quotation
with that external id, or null — a lookup among the saved quotations by
gmailMessageId. -/
def findByGmailMessageId (w : World) (id : String) : Option Quotation :=
  w.quotations.find? fun q => q.gmailMessageId == id

/-- The ingest context handed to processOneEmail.  Optional collaborators are
present-flags plus behavior, matching the if (ctx.x) guards of the source; the
collaborators themselves are deterministic oracles: the extraction call as a
function of the body and the enquiry-file handle, the persistence save as a
possible per-quotation failure message (none = success, the quotation is
appended), and the two description-formatting helpers consumed by the HTML
builder. -/
structure IngestCtx where
  hasFind : Bool
  instructions : String
  defaultTerms : String
  hasUploadEnquiry : Bool
  uploadEnquiry : Attachment → UploadOutcome
  gen : String → Option String → Except String AiResult
  hasNextQuoteNumber : Bool
  hasSave : Bool
  saveFail : Quotation → Option String
  fmt : RawLineItem → String
  labelOf : Option String → String

/-- buildQuotationToSave (ingestLogic.js): assemble the persistable record
from the AI result, the formatted quote number, the terms, the email body and
the Gmail linkage; tableHTML, headerHTML and grandTotal come from the HTML
builder, id and the timestamps from the clock, and saved is false. -/
def buildQuotationToSave (fmt : RawLineItem → String) (labelOf : Option String → String)
    (w : World) (aiResult : AiResult)
    (quoteNumber termsText emailContent gmailMessageId emailLink : String) : Quotation :=
  let t := buildTableHTMLFromLineItems fmt labelOf aiResult.lineItems
  let headerHTML := buildHeaderHTMLFromQuotation aiResult quoteNumber
  { id := w.nowMs
    createdAt := toString w.nowMs
    updatedAt := toString w.nowMs
    customerName := aiResult.customerName
    companyName := aiResult.companyName
    projectName := aiResult.projectName
    quotationDate := aiResult.quotationDate
    phoneNumber := aiResult.phoneNumber
    mobileNumber := aiResult.mobileNumber
    lineItems := aiResult.lineItems.getD []
    quoteNumber := quoteNumber
    termsText := termsText
    grandTotal := t.grandTotalFormatted
    tableHTML := t.tableHTML
    headerHTML := headerHTML
    emailContent := emailContent
    emailLink := jsOrS emailLink (if gmailMessageId == "" then "" else gmailInboxUrl ++ gmailMessageId)
    gmailMessageId := gmailMessageId
    saved := false }

/-- Result of processing one email. -/
inductive ProcResult where
  | ok (id : Nat) (emailId : String)
  | err (msg : String) (emailId : Option String)
deriving Repr, DecidableEq

/-- The enquiry-file handle of one email: the first PDF attachment uploaded to
the inference service when that collaborator is present; an upload failure is
logged and treated as no attachment. -/
def enquiryFileIdOf (ctx : IngestCtx) (email : EmailRecord) : Option String :=
  match getFirstPdfAttachment email.attachments with
  | some a =>
      if ctx.hasUploadEnquiry then
        match ctx.uploadEnquiry a with
        | UploadOutcome.ok fid => some fid
        | UploadOutcome.fail _ => none
      else none
  | none => none

/-- The tail of processOneEmail after a successful generation: default the
line items, allocate and format the quote number when that collaborator is
present (modeled as always succeeding — the source logs and continues on
failure), build the quotation, advance the clock, and save when the save
collaborator is present (a save failure becomes the error of that email). -/
def afterGenerate (ctx : IngestCtx) (w : World) (emailId body defaultTerms : String)
    (ai0 : AiResult) : ProcResult × World :=
  let aiResult := if ai0.lineItems.isNone then { ai0 with lineItems := some [] } else ai0
  let qnw : String × World :=
    if ctx.hasNextQuoteNumber then
      ((formatQuoteNumber (some ((nextQuoteNumber w.counter).1))),
        { w with counter := (nextQuoteNumber w.counter).2 })
    else ("", w)
  let emailLink := if emailId == "" then "" else gmailInboxUrl ++ emailId
  let quotation :=
    buildQuotationToSave ctx.fmt ctx.labelOf qnw.2 aiResult qnw.1 defaultTerms body emailId emailLink
  let w2 : World := { qnw.2 with nowMs := qnw.2.nowMs + 1 }
  if ctx.hasSave then
    match ctx.saveFail quotation with
    | some m => (ProcResult.err (jsOrS m "Failed to save quotation") (some emailId), w2)
    | none =>
        (ProcResult.ok quotation.id emailId, { w2 with quotations := w2.quotations ++ [quotation] })
  else (ProcResult.ok quotation.id emailId, w2)

/-- processOneEmail (ingestLogic.js 77-162): missing-id guard, duplicate check
(only when the find collaborator is present), instructions guard, enquiry
attachment, empty-email guard, generation, then afterGenerate. -/
def processOneEmail (ctx : IngestCtx) (w : World) (email : EmailRecord) : ProcResult × World :=
  let emailId := email.id
  if emailId == "" then (ProcResult.err "Missing email id" none, w)
  else if ctx.hasFind && (findByGmailMessageId w emailId).isSome then
    (ProcResult.err "Already imported (duplicate)" (some emailId), w)
  else if jsStrTrim ctx.instructions == "" then
    (ProcResult.err "No instructions configured on server" (some emailId), w)
  else
    let body := email.body
    let enquiryFileId := enquiryFileIdOf ctx email
    if jsStrTrim body == "" && enquiryFileId.isNone then
      (ProcResult.err "Email has no body and no PDF attachment" (some emailId), w)
    else
      match ctx.gen body enquiryFileId with
      | Except.error m =>
          (ProcResult.err (jsOrS m "Failed to generate quotation") (some emailId), w)
      | Except.ok ai0 => afterGenerate ctx w emailId body ctx.defaultTerms ai0

/-- Batch result of processAllEmails. -/
structure BatchResult where
  created : Nat
  ids : List Nat
  errors : List (Option String × String)
deriving Repr, DecidableEq

/-- The sequential loop of processAllEmails: per email, push the new id on
success or the (emailId, error) pair on failure, threading the world. -/
def processAllLoop (ctx : IngestCtx) :
    World → List EmailRecord → List Nat → List (Option String × String) →
      List Nat × List (Option String × String) × World
  | w, [], ids, errors => (ids, errors, w)
  | w, e :: rest, ids, errors =>
    match processOneEmail ctx w e with
    | (ProcResult.ok i _, w1) => processAllLoop ctx w1 rest (ids ++ [i]) errors
    | (ProcResult.err m eid, w1) =>
        processAllLoop ctx w1 rest ids (errors ++ [(eid, jsOrS m "Unknown error")])

/-- processAllEmails (ingestLogic.js 170-195): a missing or non-array body
yields the fixed one-error result; otherwise the loop runs over the batch and
created is the number of collected ids. -/
def processAllEmails (ctx : IngestCtx) (w : World) (emails : Option (List EmailRecord)) :
    BatchResult × World :=
  match emails with
  | none => ({ created := 0, ids := [], errors := [(none, "Missing or invalid emails array")] }, w)
  | some es =>
    match processAllLoop ctx w es [] [] with
    | (ids, errors, w1) => ({ created := ids.length, ids := ids, errors := errors }, w1)

/-- The per-email results of the sequential batch run, in order. -/
def batchTrace (ctx : IngestCtx) : World → List EmailRecord → List ProcResult
  | _, [] => []
  | w, e :: rest =>
    match processOneEmail ctx w e with
    | (r, w1) => r :: batchTrace ctx w1 rest

/-- The id a successful per-email result contributes. -/
def okId : ProcResult → Option Nat
  | ProcResult.ok i _ => some i
  | ProcResult.err _ _ => none

/-- The error entry a failed per-email result contributes. -/
def errEntry : ProcResult → Option (Option String × String)
  | ProcResult.ok _ _ => none
  | ProcResult.err m eid => some (eid, jsOrS m "Unknown error")

/-- Whether a per-email result is a failure. -/
def isErrR : ProcResult → Bool
  | ProcResult.ok _ _ => false
  | ProcResult.err _ _ => true

/-- The route precondition of createIngestFromGmailRoute (route.js 44-49): the
ingest route only requires the save and next-quote-number collaborators; no
check involves the duplicate-lookup collaborator. -/
def routePreconditionOk (ctx : IngestCtx) : Bool :=
  ctx.hasSave && ctx.hasNextQuoteNumber

/-! ## Claim C5: batch isolation -/

theorem processAllLoop_ids_errors (ctx : IngestCtx) (es : List EmailRecord) (w : World)
    (ids : List Nat) (errors : List (Option String × String)) :
    (processAllLoop ctx w es ids errors).1 =
      ids ++ (batchTrace ctx w es).filterMap okId ∧
    (processAllLoop ctx w es ids errors).2.1 =
      errors ++ (batchTrace ctx w es).filterMap errEntry := by
  induction es generalizing w ids errors with
  | nil => simp [processAllLoop, batchTrace]
  | cons e rest ih =>
      cases hP : processOneEmail ctx w e with
      | mk r w1 =>
          cases r with
          | ok i eid =>
              simp only [processAllLoop, batchTrace, hP]
              refine ⟨?_, ?_⟩
              · rw [(ih w1 (ids ++ [i]) errors).1]
                simp [okId]
              · rw [(ih w1 (ids ++ [i]) errors).2]
                simp [errEntry]
          | err m eid =>
              simp only [processAllLoop, batchTrace, hP]
              refine ⟨?_, ?_⟩
              · rw [(ih w1 ids (errors ++ [(eid, jsOrS m "Unknown error")])).1]
                simp [okId]
              · rw [(ih w1 ids (errors ++ [(eid, jsOrS m "Unknown error")])).2]
                simp [errEntry]

theorem batchTrace_length (ctx : IngestCtx) (es : List EmailRecord) (w : World) :
    (batchTrace ctx w es).length = es.length := by
  induction es generalizing w with
  | nil => simp [batchTrace]
  | cons e rest ih =>
      cases hP : processOneEmail ctx w e with
      | mk r w1 => simp [batchTrace, hP, ih]

theorem okId_length_add_err_count (rs : List ProcResult) :
    (rs.filterMap okId).length + rs.countP isErrR = rs.length := by
  induction rs with
  | nil => simp
  | cons r rest ih =>
      cases r with
      | ok i eid =>
          simp only [List.filterMap_cons, okId, List.countP_cons, isErrR,
            Bool.false_eq_true, if_false, List.length_cons]
          omega
      | err m eid =>
          simp only [List.filterMap_cons, okId, List.countP_cons, isErrR,
            if_true, List.length_cons]
          omega

theorem errEntry_length_eq_err_count (rs : List ProcResult) :
    (rs.filterMap errEntry).length = rs.countP isErrR := by
  induction rs with
  | nil => simp
  | cons r rest ih =>
      cases r with
      | ok i eid => simpa [errEntry, isErrR, List.countP_cons] using ih
      | err m eid => simp [errEntry, isErrR, List.countP_cons, ih]

/-- Claim C5: the batch is processed sequentially and each email
independently: every email of the batch yields exactly one trace entry (a
failure never prevents processing of the emails before or after it), the
returned ids are exactly the successful ids in order, the returned errors are
exactly the (emailId, message) pairs of the failed entries in order, and when
exactly one email fails the result has created = N - 1, the N - 1 new ids,
and exactly one error entry. -/
theorem c5_batch_isolation (ctx : IngestCtx) (w : World) (emails : List EmailRecord)
    (h1 : (batchTrace ctx w emails).countP isErrR = 1) :
    (batchTrace ctx w emails).length = emails.length ∧
    (processAllEmails ctx w (some emails)).1.ids = (batchTrace ctx w emails).filterMap okId ∧
    (processAllEmails ctx w (some emails)).1.errors =
      (batchTrace ctx w emails).filterMap errEntry ∧
    (processAllEmails ctx w (some emails)).1.created = emails.length - 1 ∧
    (processAllEmails ctx w (some emails)).1.errors.length = 1 := by
  have hloop := processAllLoop_ids_errors ctx emails w [] []
  have hlen := batchTrace_length ctx emails w
  have hcount := okId_length_add_err_count (batchTrace ctx w emails)
  have helen := errEntry_length_eq_err_count (batchTrace ctx w emails)
  unfold processAllEmails
  cases hL : processAllLoop ctx w emails [] [] with
  | mk ids rest =>
      cases rest with
      | mk errors w1 =>
          rw [hL] at hloop
          simp only [List.nil_append] at hloop
          simp only [hL]
          refine ⟨hlen, ?_, ?_, ?_, ?_⟩
          · exact hloop.1
          · exact hloop.2
          · rw [hloop.1]
            omega
          · rw [hloop.2]
            omega

/-! ## Claims C2 and C9: deduplication -/

theorem afterGenerate_saveOk (ctx : IngestCtx) (w : World) (emailId body terms : String)
    (ai0 : AiResult) (hSave : ctx.hasSave = true) (hSaveOk : ∀ q, ctx.saveFail q = none) :
    ∃ i q w2, afterGenerate ctx w emailId body terms ai0 = (ProcResult.ok i emailId, w2) ∧
      w2.quotations = w.quotations ++ [q] ∧ q.gmailMessageId = emailId := by
  unfold afterGenerate
  simp only [hSave, if_true, hSaveOk]
  by_cases hn : ctx.hasNextQuoteNumber
  · simp only [hn, if_true]
    exact ⟨_, _, _, rfl, rfl, by simp [buildQuotationToSave]⟩
  · simp only [hn, Bool.false_eq_true, if_false]
    exact ⟨_, _, _, rfl, rfl, by simp [buildQuotationToSave]⟩

theorem afterGenerate_ok_inversion (ctx : IngestCtx) (w : World)
    (emailId body terms : String) (ai0 : AiResult) (i : Nat) (eid : String) (w1 : World)
    (hSave : ctx.hasSave = true)
    (h : afterGenerate ctx w emailId body terms ai0 = (ProcResult.ok i eid, w1)) :
    eid = emailId ∧
    ∃ q : Quotation, w1.quotations = w.quotations ++ [q] ∧ q.gmailMessageId = emailId := by
  simp only [afterGenerate, hSave, if_true] at h
  split at h
  · simp at h
  · simp only [Prod.mk.injEq, ProcResult.ok.injEq] at h
    obtain ⟨⟨hi, heid⟩, hw⟩ := h
    subst hw
    by_cases hn : ctx.hasNextQuoteNumber
    · simp only [hn, if_true]
      exact ⟨heid.symm, _, rfl, by simp [buildQuotationToSave]⟩
    · simp only [hn, Bool.false_eq_true, if_false]
      exact ⟨heid.symm, _, rfl, by simp [buildQuotationToSave]⟩

theorem processOne_ok_inversion (ctx : IngestCtx) (w : World) (e : EmailRecord)
    (i : Nat) (eid : String) (w1 : World)
    (h : processOneEmail ctx w e = (ProcResult.ok i eid, w1)) :
    (e.id == "") = false ∧
    (ctx.hasFind && (findByGmailMessageId w e.id).isSome) = false ∧
    (jsStrTrim ctx.instructions == "") = false ∧
    (jsStrTrim e.body == "" && (enquiryFileIdOf ctx e).isNone) = false ∧
    ∃ ai0, ctx.gen e.body (enquiryFileIdOf ctx e) = Except.ok ai0 ∧
      afterGenerate ctx w e.id e.body ctx.defaultTerms ai0 = (ProcResult.ok i eid, w1) := by
  simp only [processOneEmail] at h
  by_cases h0 : e.id == ""
  · simp [h0] at h
  · simp only [Bool.not_eq_true] at h0
    simp only [h0, Bool.false_eq_true, if_false] at h
    by_cases h1 : ctx.hasFind && (findByGmailMessageId w e.id).isSome
    · simp [h1] at h
    · simp only [Bool.not_eq_true] at h1
      simp only [h1, Bool.false_eq_true, if_false] at h
      by_cases h2 : jsStrTrim ctx.instructions == ""
      · simp [h2] at h
      · simp only [Bool.not_eq_true] at h2
        simp only [h2, Bool.false_eq_true, if_false] at h
        by_cases h3 : jsStrTrim e.body == "" && (enquiryFileIdOf ctx e).isNone
        · simp [h3] at h
        · simp only [Bool.not_eq_true] at h3
          simp only [h3, Bool.false_eq_true, if_false] at h
          cases hgen : ctx.gen e.body (enquiryFileIdOf ctx e) with
          | error m =>
              rw [hgen] at h
              simp at h
          | ok ai0 =>
              rw [hgen] at h
              exact ⟨h0, h1, h2, h3, ai0, rfl, h⟩

/-- Claim C2: with the duplicate-lookup collaborator present, an email whose
id matches the gmailMessageId of a persisted quotation short-circuits with the
duplicate error and leaves the world untouched (nothing generated, allocated
or saved); consequently, when a first submission of an email succeeded and was
saved, exactly one quotation with that gmailMessageId is persisted and a
second submission of the same record reports the duplicate error and persists
nothing. -/
theorem c2_duplicate_idempotent (ctx : IngestCtx) (w w1 : World) (e : EmailRecord)
    (i : Nat) (eid : String)
    (hFind : ctx.hasFind = true) :
    ((e.id == "") = false → (findByGmailMessageId w e.id).isSome →
      processOneEmail ctx w e =
        (ProcResult.err "Already imported (duplicate)" (some e.id), w)) ∧
    (ctx.hasSave = true →
      processOneEmail ctx w e = (ProcResult.ok i eid, w1) →
      w1.quotations.countP (fun q => q.gmailMessageId == e.id) = 1 ∧
      processOneEmail ctx w1 e =
        (ProcResult.err "Already imported (duplicate)" (some e.id), w1)) := by
  constructor
  · intro hid hdup
    unfold processOneEmail
    simp [hid, hFind, hdup]
  · intro hSave hOk
    obtain ⟨hid, hdup, hinstr, hbody, ai0, hgen, hafter⟩ :=
      processOne_ok_inversion ctx w e i eid w1 hOk
    obtain ⟨heid, q, hw1, hq⟩ :=
      afterGenerate_ok_inversion ctx w e.id e.body ctx.defaultTerms ai0 i eid w1 hSave hafter
    have hfind_none : findByGmailMessageId w e.id = none := by
      cases hf : findByGmailMessageId w e.id with
      | none => rfl
      | some qq =>
          rw [hFind] at hdup
          simp [hf] at hdup
    have hzero : w.quotations.countP (fun q => q.gmailMessageId == e.id) = 0 := by
      rw [List.countP_eq_zero]
      intro a ha
      have := List.find?_eq_none.mp hfind_none a ha
      simpa using this
    have hsome : (findByGmailMessageId w1 e.id).isSome = true := by
      unfold findByGmailMessageId
      rw [hw1, List.find?_isSome]
      exact ⟨q, by simp, by simp [hq]⟩
    constructor
    · rw [hw1, List.countP_append, hzero]
      simp [hq]
    · unfold processOneEmail
      simp [hid, hFind, hsome]

/-- Claim C9: the duplicate check runs only when the find collaborator is
present, and the ingest route precondition requires only the save and
next-quote-number collaborators; so in a context that passes the route
precondition but lacks the find collaborator, an already-persisted email
record is processed and persisted again with no duplicate error. -/
theorem c9_double_ingest_without_find (ctx : IngestCtx) (w w1 : World) (e : EmailRecord)
    (i : Nat) (eid : String)
    (hNoFind : ctx.hasFind = false)
    (hRoute : routePreconditionOk ctx = true)
    (hSaveOk : ∀ q, ctx.saveFail q = none)
    (hOk : processOneEmail ctx w e = (ProcResult.ok i eid, w1)) :
    1 ≤ w1.quotations.countP (fun q => q.gmailMessageId == e.id) ∧
    ∃ i2 w2, processOneEmail ctx w1 e = (ProcResult.ok i2 e.id, w2) ∧
      w2.quotations.countP (fun q => q.gmailMessageId == e.id) =
        w1.quotations.countP (fun q => q.gmailMessageId == e.id) + 1 := by
  have hSave : ctx.hasSave = true := by
    unfold routePreconditionOk at hRoute
    exact (Bool.and_eq_true_iff.mp hRoute).1
  obtain ⟨hid, hdup, hinstr, hbody, ai0, hgen, hafter⟩ :=
    processOne_ok_inversion ctx w e i eid w1 hOk
  obtain ⟨heid, q, hw1, hq⟩ :=
    afterGenerate_ok_inversion ctx w e.id e.body ctx.defaultTerms ai0 i eid w1 hSave hafter
  constructor
  · rw [hw1, List.countP_append]
    simp [hq]
  · obtain ⟨i2, q2, w2, hrun2, hw2, hq2⟩ :=
      afterGenerate_saveOk ctx w1 e.id e.body ctx.defaultTerms ai0 hSave hSaveOk
    refine ⟨i2, w2, ?_, ?_⟩
    · unfold processOneEmail
      simp only [hid, Bool.false_eq_true, if_false, hNoFind, Bool.false_and, hinstr, hbody,
        hgen]
      exact hrun2
    · rw [hw2, List.countP_append]
      simp [hq2]

/-! ## Claim C10: the persisted grand total -/

theorem tableRowsAndTotal_total (fmt : RawLineItem → String) (items : List RawLineItem)
    (rows : List String) (total : ℚ) :
    (tableRowsAndTotal fmt items rows total).2 =
      total + (items.map (fun it => parseOr0 it.quantity * parseOr0 it.finalRate)).sum := by
  induction items generalizing rows total with
  | nil => simp [tableRowsAndTotal]
  | cons item rest ih =>
      simp only [tableRowsAndTotal, List.map_cons, List.sum_cons]
      rw [ih]
      ring

/-- The AI result of the C10 counterexample: one line item with quantity 1 and
finalRate 0.4, and an extraction-supplied lineTotal of 999. -/
def aiC10 : AiResult :=
  { lineItems := some [{ quantity := some "1", finalRate := some "0.4", lineTotal := some "999" }] }

/-- Claim C10, counterexample: the persisted grandTotal of the ingested
quotation built from aiC10 is the string "0", while the sum of
quantity * finalRate over its items is 0.4 — the stored value is the sum
rounded to the nearest integer, not the sum. -/
theorem c10_counterexample :
    (buildQuotationToSave (fun _ => "") (fun o => o.getD "") {} aiC10 "" "" "" "m1" "").grandTotal
      = "0" ∧
    ((aiC10.lineItems.getD []).map
      (fun it => parseOr0 it.quantity * parseOr0 it.finalRate)).sum = 2 / 5 ∧
    ((2 : ℚ) / 5 ≠ 0) := by
  refine ⟨?_, by (simp +decide [aiC10, parseOr0, jsParseFloat, digitsVal]; norm_num), by norm_num⟩
  have hsum : (tableRowsAndTotal (fun _ => "")
      [{ quantity := some "1", finalRate := some "0.4", lineTotal := some "999" }] [] 0).2
      = 2 / 5 := by
    rw [tableRowsAndTotal_total]
    (simp +decide [parseOr0, jsParseFloat, digitsVal]; norm_num)
  have hround : jsRound ((2 : ℚ) / 5) = 0 := by
    unfold jsRound
    rw [round_eq]
    norm_num
  unfold buildQuotationToSave
  simp only [aiC10, buildTableHTMLFromLineItems, Option.getD_some, List.isEmpty_cons,
    Bool.false_eq_true, if_false, hsum, hround]
  rfl

/-- Claim C10 (amended): the grandTotal stored on an ingested quotation is
computed solely from the parsed quantity and finalRate of each item (0 when
missing or unparseable) as the sum of quantity * finalRate over the items,
rounded to the nearest integer and stored as its decimal string; the
extraction-supplied lineTotal fields have no effect on it; and an empty or
missing item list stores "0". -/
theorem c10_grand_total (fmt : RawLineItem → String) (labelOf : Option String → String)
    (w : World) (ai : AiResult) (qn tt ec gm el : String) (g : RawLineItem → Option String) :
    (buildQuotationToSave fmt labelOf w ai qn tt ec gm el).grandTotal =
      toString (jsRound (((ai.lineItems.getD []).map
        (fun it => parseOr0 it.quantity * parseOr0 it.finalRate)).sum)) ∧
    (buildTableHTMLFromLineItems fmt labelOf
        (some ((ai.lineItems.getD []).map
          (fun it => { it with lineTotal := g it })))).grandTotalFormatted =
      (buildTableHTMLFromLineItems fmt labelOf (some (ai.lineItems.getD []))).grandTotalFormatted ∧
    (buildQuotationToSave fmt labelOf w { ai with lineItems := none } qn tt ec gm el).grandTotal
      = "0" := by
  refine ⟨?_, ?_, ?_⟩
  · unfold buildQuotationToSave
    cases hL : ai.lineItems with
    | none =>
        simp [hL, buildTableHTMLFromLineItems, jsRound]
        rfl
    | some items =>
        cases items with
        | nil =>
            simp [hL, buildTableHTMLFromLineItems, jsRound]
            rfl
        | cons a l =>
            simp [hL, buildTableHTMLFromLineItems, tableRowsAndTotal_total]
  · cases hL : ai.lineItems with
    | none => simp [hL, buildTableHTMLFromLineItems]
    | some items =>
        cases items with
        | nil => simp [hL, buildTableHTMLFromLineItems]
        | cons a l =>
            have hfun : ((fun it => parseOr0 it.quantity * parseOr0 it.finalRate) ∘
                (fun it : RawLineItem => { it with lineTotal := g it })) =
                (fun it : RawLineItem => parseOr0 it.quantity * parseOr0 it.finalRate) := by
              funext it
              rfl
            simp [hL, buildTableHTMLFromLineItems, tableRowsAndTotal_total, hfun]
  · simp [buildQuotationToSave, buildTableHTMLFromLineItems]

/-! ## Concrete witness data for the ingest claims -/

/-- A concrete ingest context with every collaborator present: deterministic
generation that fails on an empty body, always-successful saves, and trivial
description formatting. -/
def ctxW : IngestCtx :=
  { hasFind := true
    instructions := "extract items"
    defaultTerms := "terms"
    hasUploadEnquiry := false
    uploadEnquiry := fun _ => UploadOutcome.fail "offline"
    gen := fun body _ =>
      if body == "" then Except.error "empty" else Except.ok { customerName := some "c" }
    hasNextQuoteNumber := true
    hasSave := true
    saveFail := fun _ => none
    fmt := fun _ => ""
    labelOf := fun o => o.getD "" }

/-- The same context without the duplicate-lookup collaborator; it still
passes the ingest route precondition. -/
def ctxNoFind : IngestCtx := { ctxW with hasFind := false }

/-- Concrete email records. -/
def eW1 : EmailRecord := { id := "m1", body := "hello" }

def eW2 : EmailRecord := { id := "m2" }

def eW3 : EmailRecord := { id := "m3", body := "world" }

/-- Witness for C2: the statement applied to the concrete context, the empty
world and a concrete email. -/
theorem c2_witness :
    ((eW1.id == "") = false → (findByGmailMessageId {} eW1.id).isSome →
      processOneEmail ctxW {} eW1 =
        (ProcResult.err "Already imported (duplicate)" (some eW1.id), {})) ∧
    (ctxW.hasSave = true →
      processOneEmail ctxW {} eW1 = (ProcResult.ok 0 "m1", (processOneEmail ctxW {} eW1).2) →
      (processOneEmail ctxW {} eW1).2.quotations.countP
          (fun q => q.gmailMessageId == eW1.id) = 1 ∧
      processOneEmail ctxW (processOneEmail ctxW {} eW1).2 eW1 =
        (ProcResult.err "Already imported (duplicate)" (some eW1.id),
          (processOneEmail ctxW {} eW1).2)) :=
  c2_duplicate_idempotent ctxW {} (processOneEmail ctxW {} eW1).2 eW1 0 "m1" rfl

/-- Witness for C5: a three-email batch whose middle email (empty body, no
attachment) is the single failure. -/
theorem c5_witness :
    (batchTrace ctxW {} [eW1, eW2, eW3]).length = ([eW1, eW2, eW3] : List EmailRecord).length ∧
    (processAllEmails ctxW {} (some [eW1, eW2, eW3])).1.ids =
      (batchTrace ctxW {} [eW1, eW2, eW3]).filterMap okId ∧
    (processAllEmails ctxW {} (some [eW1, eW2, eW3])).1.errors =
      (batchTrace ctxW {} [eW1, eW2, eW3]).filterMap errEntry ∧
    (processAllEmails ctxW {} (some [eW1, eW2, eW3])).1.created =
      ([eW1, eW2, eW3] : List EmailRecord).length - 1 ∧
    (processAllEmails ctxW {} (some [eW1, eW2, eW3])).1.errors.length = 1 :=
  c5_batch_isolation ctxW {} [eW1, eW2, eW3] (by decide)

/-- Witness for C9: after one successful ingest of a record in the
find-collaborator-less context, the same record is processed and persisted a
second time with no duplicate error. -/
theorem c9_witness :
    1 ≤ (processOneEmail ctxNoFind {} eW1).2.quotations.countP
        (fun q => q.gmailMessageId == eW1.id) ∧
    ∃ i2 w2, processOneEmail ctxNoFind (processOneEmail ctxNoFind {} eW1).2 eW1 =
        (ProcResult.ok i2 eW1.id, w2) ∧
      w2.quotations.countP (fun q => q.gmailMessageId == eW1.id) =
        (processOneEmail ctxNoFind {} eW1).2.quotations.countP
          (fun q => q.gmailMessageId == eW1.id) + 1 :=
  c9_double_ingest_without_find ctxNoFind {} (processOneEmail ctxNoFind {} eW1).2 eW1 0 "m1"
    rfl rfl (fun _ => rfl)
    (by rw [show (ProcResult.ok 0 "m1") = (processOneEmail ctxNoFind ({} : World) eW1).1 by decide])
